import Mathlib

/-!
# allgood: check registry and execution engine

A shallow embedding of the Go package `allgood` (`engine.go`, `checks.go`) and of
its older sub-packages `config`, `healthcheck` and `engine`.

Conventions of the embedding.

* `uuid.UUID` comes from an external library; it is a type parameter `U` with
  decidable equality.  `UUID.String` is a parameter `str : U → String` and
  `uuid.New` is a parameter `uuidNew : W → U × W`.
* `W` is the ambient state every impure Go call reads and updates (the random
  source behind `uuid.New`, the probed back ends).  A Go `func() T` whose body is
  supplied from outside the package is a function `W → T × W`.
* A panic is the `Except.error` branch, carrying the panic value's text.
* A Go `map[K]V` is a Mathlib `AList`: `m[k] = v` is `AList.insert`, the
  two-valued read `v, ok := m[k]` is `AList.lookup`.  `range` visits the entries
  in an order Go leaves unspecified, so every loop over a map takes the visiting
  order as an argument of type `RangeOrder`.
* The operations on the registry are modelled as sequential steps.  What each
  method does with the mutex `Engine.mu` is modelled apart, as the sequence of
  its `Lock`, `Unlock` and map accesses (`Access`), with a two-goroutine
  scheduler (`interleave`).
* The package `expectations` compares values held in an `interface{}`; a
  `float64` is modelled by what `<` and `>` see of it (`F64`).
-/

namespace Allgood

/-- CheckType is the category a check belongs to (`type CheckType string`). -/
abbrev CheckType := String

def CheckTypePostgresConnection : CheckType := "postgres"
def CheckTypeMongoConnection : CheckType := "mongo"
def CheckTypeSupabaseDBConnection : CheckType := "supabaseDb"
def CheckTypeCPUUsage : CheckType := "cpuUsage"
def CheckTypeDatabaseConnection : CheckType := "databaseConnection"
def CheckTypeDatabaseQuery : CheckType := "databaseQuery"
def CheckTypeRedisConnection : CheckType := "redisConnection"
def CheckTypeDiskSpace : CheckType := "diskSpace"
def CheckTypeMemoryUsage : CheckType := "memoryUsage"

def AvoidDuplicateFor : List CheckType :=
  [CheckTypeCPUUsage, CheckTypeDiskSpace, CheckTypeMemoryUsage]

/-- CheckFunc is `func() (bool, string)`: run in state `w` it either panics or
returns its pair together with the state it leaves behind. -/
abbrev CheckFunc (W : Type) := W → Except String ((Bool × String) × W)

/-- CheckConfig holds the configuration of one check.  The Go field `Type` is
spelled `Typ`, the Go name being reserved in Lean. -/
structure CheckConfig (U W : Type) where
  Id : U
  Typ : CheckType
  Name : String
  Enabled : Bool
  HandlerFunc : CheckFunc W

/-- Result is `models.Result`, with the four fields `runChecks` fills in. -/
structure Result where
  Id : String
  Name : String
  Success : Bool
  Message : String
deriving DecidableEq, Repr

/-- The entries of a `map[uuid.UUID]CheckConfig`. -/
abbrev Entry (U W : Type) := Sigma (fun _ : U => CheckConfig U W)

/-- The registry `map[uuid.UUID]CheckConfig`. -/
abbrev Checks (U W : Type) := AList (fun _ : U => CheckConfig U W)

/-- Notifier is the interface `notify.Notifier`, given by its one method. -/
structure Notifier where
  Notify : String → Option String

/-- Engine is the struct `Engine` without its mutex. -/
structure Engine (U W : Type) where
  checks : Checks U W
  notifier : Option Notifier

/-- An order in which `range` may visit the entries of a map: any arrangement of
its entries. -/
abbrev RangeOrder {K V : Type} (m : AList (fun _ : K => V)) :=
  { l : List (Sigma (fun _ : K => V)) // l.Perm m.entries }

/-- The order in which the entries are stored, one of the possible visiting orders. -/
def RangeOrder.stored {K V : Type} (m : AList (fun _ : K => V)) : RangeOrder m :=
  ⟨m.entries, List.Perm.refl _⟩

/-- CheckInit is `func() CheckConfig`, a function that creates a CheckConfig. -/
abbrev CheckInit (U W : Type) := W → CheckConfig U W × W

/-- CheckConfigModifier is `func(*CheckConfig)`: the update it performs on the
pointed-to config. -/
abbrev CheckConfigModifier (U W : Type) := CheckConfig U W → CheckConfig U W

/-- CheckConfigModifierOption is `func() CheckConfigModifier`. -/
abbrev CheckConfigModifierOption (U W : Type) := Unit → CheckConfigModifier U W

section engine

variable {U W : Type} [DecidableEq U]

/-- The body of the `for id, check := range e.checks` loop of `runChecks`, run
over the entries still to visit, with the accumulated `results`. -/
def runChecksLoop (str : U → String) :
    List (Entry U W) → List Result → W → Except String (List Result × W)
  | [], results, w => .ok (results, w)
  | ⟨id, check⟩ :: rest, results, w =>
    if check.Enabled then
      match check.HandlerFunc w with
      | .error p => .error p
      | .ok ((success, message), w1) =>
        runChecksLoop str rest
          (results ++ [{ Id := str id, Name := check.Name, Success := success, Message := message }]) w1
    else
      runChecksLoop str rest results w

/-- What `runChecks` puts in the Result `r` it appends for the visited entry `x`:
the key as a string, the entry's Name, and a pair its HandlerFunc returned. -/
def ResultOf (str : U → String) (x : Entry U W) (r : Result) : Prop :=
  r.Id = str x.1 ∧ r.Name = x.2.Name ∧
    ∃ s s1, x.2.HandlerFunc s = .ok ((r.Success, r.Message), s1)

/-- The handler of every enabled entry among `l` returns (does not panic) in
every state. -/
def HandlersReturn (l : List (Entry U W)) : Prop :=
  ∀ x ∈ l, x.2.Enabled = true → ∀ s, ∃ p s1, x.2.HandlerFunc s = .ok (p, s1)

/-- Engine.runChecks of `engine.go`: `var results []models.Result` and the loop. -/
def Engine.runChecks (str : U → String) (e : Engine U W) (order : RangeOrder e.checks) (w : W) :
    Except String (List Result × W) :=
  runChecksLoop str order.val [] w

/-- EnableCheck of `engine.go`. -/
def Engine.EnableCheck (e : Engine U W) (id : U) : Engine U W :=
  match e.checks.lookup id with
  | some check => { e with checks := e.checks.insert id { check with Enabled := true } }
  | none => e

/-- DisableCheck of `engine.go`. -/
def Engine.DisableCheck (e : Engine U W) (id : U) : Engine U W :=
  match e.checks.lookup id with
  | some check => { e with checks := e.checks.insert id { check with Enabled := false } }
  | none => e

/-- SetNotifier of `engine.go`. -/
def Engine.SetNotifier (e : Engine U W) (n : Notifier) : Engine U W :=
  { e with notifier := some n }

/-- The loop `for _, initializer := range checkInitializers` shared by
`NewEngine` and `AddChecks`: call the initializer, store its config under
`config.Id`. -/
def addChecksLoop : List (CheckInit U W) → Checks U W → W → Checks U W × W
  | [], checks, w => (checks, w)
  | initializer :: rest, checks, w =>
    let config := (initializer w).1
    addChecksLoop rest (checks.insert config.Id config) (initializer w).2

/-- The definitions the initializers return when called one after the other
from state `w`, in call order. -/
def produced : List (CheckInit U W) → W → List (CheckConfig U W)
  | [], _ => []
  | initializer :: rest, w => (initializer w).1 :: produced rest (initializer w).2

/-- NewEngine of `engine.go`: the map starts empty and no notifier is set. -/
def NewEngine (checkInitializers : List (CheckInit U W)) (w : W) : Engine U W × W :=
  let r := addChecksLoop checkInitializers (∅ : Checks U W) w
  ({ checks := r.1, notifier := none }, r.2)

/-- AddChecks of `engine.go`. -/
def Engine.AddChecks (e : Engine U W) (checkInitializers : List (CheckInit U W)) (w : W) :
    Engine U W × W :=
  let r := addChecksLoop checkInitializers e.checks w
  ({ e with checks := r.1 }, r.2)

end engine

section checks

variable {U W : Type}

/-- WithCheckName lets you modify the default CheckConfig Name. -/
def WithCheckName (name : String) : CheckConfigModifierOption U W :=
  fun _ => fun config => { config with Name := name }

/-- WithCheckStatus lets you modify the Enabled flag of a CheckConfig. -/
def WithCheckStatus (enabled : Bool) : CheckConfigModifierOption U W :=
  fun _ => fun config => { config with Enabled := enabled }

/-- The loop `for _, option := range options` that closes every builder:
`modifier := option(); modifier(&config)`. -/
def applyOptions : List (CheckConfigModifierOption U W) → CheckConfig U W → CheckConfig U W
  | [], config => config
  | option :: rest, config => applyOptions rest ((option ()) config)

/-!
The nine builders of `checks.go`.  Each one builds the closure `handlerFunc`
from its back-end argument (a pool, a client, a threshold); that closure only
performs I/O and is passed in ready-made as the argument `handlerFunc`.
-/

def WithCheckPostgresConnection (uuidNew : W → U × W) (handlerFunc : CheckFunc W)
    (options : List (CheckConfigModifierOption U W)) (w : W) : CheckInit U W × W :=
  let config : CheckConfig U W :=
    { Id := (uuidNew w).1, Typ := CheckTypePostgresConnection, Name := "Postgres Connection",
      Enabled := true, HandlerFunc := handlerFunc }
  let config := applyOptions options config
  (fun s => (config, s), (uuidNew w).2)

def WithCheckMongoConnection (uuidNew : W → U × W) (handlerFunc : CheckFunc W)
    (options : List (CheckConfigModifierOption U W)) (w : W) : CheckInit U W × W :=
  let config : CheckConfig U W :=
    { Id := (uuidNew w).1, Typ := CheckTypeMongoConnection, Name := "Mongo Connection",
      Enabled := true, HandlerFunc := handlerFunc }
  let config := applyOptions options config
  (fun s => (config, s), (uuidNew w).2)

def WithCheckSupabaseDBConnection (uuidNew : W → U × W) (handlerFunc : CheckFunc W)
    (options : List (CheckConfigModifierOption U W)) (w : W) : CheckInit U W × W :=
  let config : CheckConfig U W :=
    { Id := (uuidNew w).1, Typ := CheckTypeSupabaseDBConnection, Name := "Supabase DB Connection",
      Enabled := true, HandlerFunc := handlerFunc }
  let config := applyOptions options config
  (fun s => (config, s), (uuidNew w).2)

def WithCheckCPUUsage (uuidNew : W → U × W) (handlerFunc : CheckFunc W)
    (options : List (CheckConfigModifierOption U W)) (w : W) : CheckInit U W × W :=
  let config : CheckConfig U W :=
    { Id := (uuidNew w).1, Typ := CheckTypeCPUUsage, Name := "CPU Usage",
      Enabled := true, HandlerFunc := handlerFunc }
  let config := applyOptions options config
  (fun s => (config, s), (uuidNew w).2)

def WithCheckDatabaseConnection (uuidNew : W → U × W) (handlerFunc : CheckFunc W)
    (options : List (CheckConfigModifierOption U W)) (w : W) : CheckInit U W × W :=
  let config : CheckConfig U W :=
    { Id := (uuidNew w).1, Typ := CheckTypeDatabaseConnection, Name := "Check Database Connection",
      Enabled := true, HandlerFunc := handlerFunc }
  let config := applyOptions options config
  (fun s => (config, s), (uuidNew w).2)

def WithCheckDatabaseQuery (uuidNew : W → U × W) (handlerFunc : CheckFunc W)
    (options : List (CheckConfigModifierOption U W)) (w : W) : CheckInit U W × W :=
  let config : CheckConfig U W :=
    { Id := (uuidNew w).1, Typ := CheckTypeDatabaseQuery, Name := "Check Database Query",
      Enabled := true, HandlerFunc := handlerFunc }
  let config := applyOptions options config
  (fun s => (config, s), (uuidNew w).2)

def WithCheckRedisConnection (uuidNew : W → U × W) (handlerFunc : CheckFunc W)
    (options : List (CheckConfigModifierOption U W)) (w : W) : CheckInit U W × W :=
  let config : CheckConfig U W :=
    { Id := (uuidNew w).1, Typ := CheckTypeRedisConnection, Name := "Check Redis Connection",
      Enabled := true, HandlerFunc := handlerFunc }
  let config := applyOptions options config
  (fun s => (config, s), (uuidNew w).2)

def WithCheckDiskSpace (uuidNew : W → U × W) (handlerFunc : CheckFunc W)
    (options : List (CheckConfigModifierOption U W)) (w : W) : CheckInit U W × W :=
  let config : CheckConfig U W :=
    { Id := (uuidNew w).1, Typ := CheckTypeDiskSpace, Name := "Check Disk Space",
      Enabled := true, HandlerFunc := handlerFunc }
  let config := applyOptions options config
  (fun s => (config, s), (uuidNew w).2)

def WithCheckMemoryUsage (uuidNew : W → U × W) (handlerFunc : CheckFunc W)
    (options : List (CheckConfigModifierOption U W)) (w : W) : CheckInit U W × W :=
  let config : CheckConfig U W :=
    { Id := (uuidNew w).1, Typ := CheckTypeMemoryUsage, Name := "Check Memory Usage",
      Enabled := true, HandlerFunc := handlerFunc }
  let config := applyOptions options config
  (fun s => (config, s), (uuidNew w).2)

/-- The nine builders by name, to quantify over them. -/
inductive Builder where
  | postgresConnection | mongoConnection | supabaseDBConnection | cpuUsage
  | databaseConnection | databaseQuery | redisConnection | diskSpace | memoryUsage
deriving DecidableEq, Repr

/-- The builder function a name stands for. -/
def Builder.run (b : Builder) (uuidNew : W → U × W) (handlerFunc : CheckFunc W)
    (options : List (CheckConfigModifierOption U W)) (w : W) : CheckInit U W × W :=
  match b with
  | .postgresConnection => WithCheckPostgresConnection uuidNew handlerFunc options w
  | .mongoConnection => WithCheckMongoConnection uuidNew handlerFunc options w
  | .supabaseDBConnection => WithCheckSupabaseDBConnection uuidNew handlerFunc options w
  | .cpuUsage => WithCheckCPUUsage uuidNew handlerFunc options w
  | .databaseConnection => WithCheckDatabaseConnection uuidNew handlerFunc options w
  | .databaseQuery => WithCheckDatabaseQuery uuidNew handlerFunc options w
  | .redisConnection => WithCheckRedisConnection uuidNew handlerFunc options w
  | .diskSpace => WithCheckDiskSpace uuidNew handlerFunc options w
  | .memoryUsage => WithCheckMemoryUsage uuidNew handlerFunc options w

/-- The modifier options `checks.go` offers, as data: `WithCheckName(name)` and
`WithCheckStatus(enabled)`. -/
inductive OptionSpec where
  | name (name : String)
  | status (enabled : Bool)
deriving DecidableEq, Repr

/-- The option a description stands for. -/
def OptionSpec.toOption : OptionSpec → CheckConfigModifierOption U W
  | .name n => WithCheckName n
  | .status enabled => WithCheckStatus enabled

/-- The argument of the last `WithCheckName` in a list of options, if any. -/
def lastName : List OptionSpec → Option String
  | [] => none
  | o :: rest =>
    match lastName rest with
    | some n => some n
    | none =>
      match o with
      | .name n => some n
      | .status _ => none

/-- The argument of the last `WithCheckStatus` in a list of options, if any. -/
def lastStatus : List OptionSpec → Option Bool
  | [] => none
  | o :: rest =>
    match lastStatus rest with
    | some b => some b
    | none =>
      match o with
      | .name _ => none
      | .status b => some b

/-- The Name each builder writes into its config literal. -/
def Builder.defaultName : Builder → String
  | .postgresConnection => "Postgres Connection"
  | .mongoConnection => "Mongo Connection"
  | .supabaseDBConnection => "Supabase DB Connection"
  | .cpuUsage => "CPU Usage"
  | .databaseConnection => "Check Database Connection"
  | .databaseQuery => "Check Database Query"
  | .redisConnection => "Check Redis Connection"
  | .diskSpace => "Check Disk Space"
  | .memoryUsage => "Check Memory Usage"

/-- The Type each builder writes into its config literal. -/
def Builder.checkType : Builder → CheckType
  | .postgresConnection => CheckTypePostgresConnection
  | .mongoConnection => CheckTypeMongoConnection
  | .supabaseDBConnection => CheckTypeSupabaseDBConnection
  | .cpuUsage => CheckTypeCPUUsage
  | .databaseConnection => CheckTypeDatabaseConnection
  | .databaseQuery => CheckTypeDatabaseQuery
  | .redisConnection => CheckTypeRedisConnection
  | .diskSpace => CheckTypeDiskSpace
  | .memoryUsage => CheckTypeMemoryUsage

end checks

/-!
## The HTTP response

`http.ResponseWriter` and `http.Error` belong to Go's standard library.  The
model keeps what its documentation fixes: the status line and header are sent by
the first `WriteHeader` (a later call is ignored, and later changes to the header
map are not sent), and a `Write` before any `WriteHeader` sends status 200 first.
-/

/-- The header map `http.Header`, one value per key. -/
abbrev Header := List (String × String)

/-- Set of `http.Header`. -/
def Header.Set (h : Header) (key value : String) : Header :=
  (key, value) :: h.filter (fun kv => kv.1 ≠ key)

/-- Get of `http.Header`: the empty string when the key is absent. -/
def Header.Get (h : Header) (key : String) : String :=
  match h.find? (fun kv => kv.1 = key) with
  | some kv => kv.2
  | none => ""

/-- The state of an `http.ResponseWriter`: the header map in the handler's hands,
the status code and header already sent (if any), and the body written so far. -/
structure ResponseWriter where
  header : Header
  statusCode : Option Nat
  sentHeader : Header
  body : String
deriving DecidableEq, Repr

/-- A response writer nothing was written to yet. -/
def ResponseWriter.new : ResponseWriter :=
  { header := [], statusCode := none, sentHeader := [], body := "" }

/-- The call `w.Header().Set(key, value)`. -/
def ResponseWriter.SetHeader (rw : ResponseWriter) (key value : String) : ResponseWriter :=
  { rw with header := rw.header.Set key value }

/-- WriteHeader of `http.ResponseWriter`: the first call sends the status code
with the current header map, any later call is ignored. -/
def ResponseWriter.WriteHeader (rw : ResponseWriter) (statusCode : Nat) : ResponseWriter :=
  match rw.statusCode with
  | some _ => rw
  | none => { rw with statusCode := some statusCode, sentHeader := rw.header }

/-- Write of `http.ResponseWriter`: sends status 200 first if no header was sent
yet, then appends to the body. -/
def ResponseWriter.Write (rw : ResponseWriter) (data : String) : ResponseWriter :=
  let rw1 := match rw.statusCode with
    | some _ => rw
    | none => rw.WriteHeader 200
  { rw1 with body := rw1.body ++ data }

/-- The function `http.Error(w, error, code)`: it sets the plain-text headers,
calls `WriteHeader(code)` and prints the error text followed by a newline. -/
def httpError (rw : ResponseWriter) (error : String) (code : Nat) : ResponseWriter :=
  let rw := rw.SetHeader "Content-Type" "text/plain; charset=utf-8"
  let rw := rw.SetHeader "X-Content-Type-Options" "nosniff"
  let rw := rw.WriteHeader code
  rw.Write (error ++ "\n")

def StatusOK : Nat := 200
def StatusInternalServerError : Nat := 500
def StatusServiceUnavailable : Nat := 503

/-- The loop of `HealthCheckHandler` over `results` that derives `status` and
`statusCode`, leaving at the first failed result (`break`). -/
def statusLoop : List Result → String × Nat → String × Nat
  | [], st => st
  | result :: rest, st =>
    if !result.Success then ("error", StatusServiceUnavailable)
    else statusLoop rest st

/-- The status the handler derives: `status := "ok"`, `statusCode := http.StatusOK`,
then the loop. -/
def deriveStatus (results : List Result) : String × Nat :=
  statusLoop results ("ok", StatusOK)

section handler

variable {U W : Type} [DecidableEq U]

/-- The handler returned by `Engine.HealthCheckHandler` in `engine.go`.
`accept` is `r.Header.Get("Accept")` (empty when the header is absent).
`jsonEncode status results` is the text `json.NewEncoder(w).Encode` writes for
the map with keys `status` and `checks`.  `render results status` is what
`views.HealthCheckPage(results, status).Render` does: the text it wrote to the
writer and the error it returned, if any. -/
def Engine.HealthCheckHandler (str : U → String) (jsonEncode : String → List Result → String)
    (render : List Result → String → String × Option String)
    (e : Engine U W) (order : RangeOrder e.checks) (accept : String)
    (rw : ResponseWriter) (w : W) : Except String (ResponseWriter × W) :=
  match e.runChecks str order w with
  | .error p => .error p
  | .ok (results, w1) =>
    let status := (deriveStatus results).1
    let statusCode := (deriveStatus results).2
    if accept = "application/json" then
      let rw := rw.SetHeader "Content-Type" "application/json"
      let rw := rw.WriteHeader statusCode
      .ok (rw.Write (jsonEncode status results), w1)
    else
      let rw := rw.SetHeader "Content-Type" "text/html"
      let rw := rw.WriteHeader statusCode
      let rw := rw.Write (render results status).1
      match (render results status).2 with
      | some err => .ok (httpError rw err StatusInternalServerError, w1)
      | none => .ok (rw, w1)

end handler

/-! ## The older packages `config`, `healthcheck` and `engine` -/

namespace config

/-- CheckConfig of `config/config.go`. -/
structure CheckConfig (W : Type) where
  Enabled : Bool
  Func : CheckFunc W
  Threshold : Float

/-- Configuration of `config/config.go`. -/
structure Configuration (W : Type) where
  Checks : AList (fun _ : String => CheckConfig W)

variable {W : Type}

def NewConfiguration : Configuration W :=
  { Checks := ∅ }

def Configuration.AddCheck (c : Configuration W) (name : String) (check : CheckFunc W) :
    Configuration W :=
  { Checks := c.Checks.insert name { Enabled := true, Func := check, Threshold := 0 } }

def Configuration.EnableCheck (c : Configuration W) (name : String) : Configuration W :=
  match c.Checks.lookup name with
  | some check => { Checks := c.Checks.insert name { check with Enabled := true } }
  | none => c

def Configuration.DisableCheck (c : Configuration W) (name : String) : Configuration W :=
  match c.Checks.lookup name with
  | some check => { Checks := c.Checks.insert name { check with Enabled := false } }
  | none => c

end config

namespace healthcheck

/-- Result of `healthcheck/healthcheck.go`. -/
structure Result where
  Name : String
  Success : Bool
  Message : String
deriving DecidableEq, Repr

variable {W : Type}

/-- The loop of `RunChecks` over the entries still to visit. -/
def runChecksLoop :
    List (Sigma (fun _ : String => config.CheckConfig W)) → List Result → W →
      Except String (List Result × W)
  | [], results, w => .ok (results, w)
  | ⟨name, check⟩ :: rest, results, w =>
    if check.Enabled then
      match check.Func w with
      | .error p => .error p
      | .ok ((success, message), w1) =>
        runChecksLoop rest (results ++ [{ Name := name, Success := success, Message := message }]) w1
    else
      runChecksLoop rest results w

/-- RunChecks of `healthcheck/healthcheck.go`, on the configuration the
`HealthCheck` points to. -/
def RunChecks (cfg : config.Configuration W) (order : RangeOrder cfg.Checks) (w : W) :
    Except String (List Result × W) :=
  runChecksLoop order.val [] w

end healthcheck

namespace engine

variable {W : Type}

/-- The status loop of the handler in `engine/engine.go`. -/
def statusLoop : List healthcheck.Result → String × Nat → String × Nat
  | [], st => st
  | result :: rest, st =>
    if !result.Success then ("error", StatusServiceUnavailable)
    else statusLoop rest st

/-- The status the handler of `engine/engine.go` derives. -/
def deriveStatus (results : List healthcheck.Result) : String × Nat :=
  statusLoop results ("ok", StatusOK)

/-- The handler returned by `Engine.HealthCheckHandler` in `engine/engine.go`;
the engine is given by the configuration its health check points to. -/
def HealthCheckHandler (jsonEncode : String → List healthcheck.Result → String)
    (render : List healthcheck.Result → String → String × Option String)
    (cfg : config.Configuration W) (order : RangeOrder cfg.Checks) (accept : String)
    (rw : ResponseWriter) (w : W) : Except String (ResponseWriter × W) :=
  match healthcheck.RunChecks cfg order w with
  | .error p => .error p
  | .ok (results, w1) =>
    let status := (deriveStatus results).1
    let statusCode := (deriveStatus results).2
    if accept = "application/json" then
      let rw := rw.SetHeader "Content-Type" "application/json"
      let rw := rw.WriteHeader statusCode
      .ok (rw.Write (jsonEncode status results), w1)
    else
      let rw := rw.SetHeader "Content-Type" "text/html"
      let rw := rw.WriteHeader statusCode
      let rw := rw.Write (render results status).1
      match (render results status).2 with
      | some err => .ok (httpError rw err StatusInternalServerError, w1)
      | none => .ok (rw, w1)

end engine

/-! ## The package `expectations` -/

namespace expectations

/-- The values of a Go `float64` as far as `<` and `>` see them: not-a-number,
the two infinities, and the finite values by the number they stand for (both
zeros stand for 0). -/
inductive F64 where
  | nan
  | negInf
  | fin (q : ℚ)
  | posInf
deriving DecidableEq

/-- The operator `<` on `float64`: false as soon as one side is not a number. -/
def F64.lt : F64 → F64 → Bool
  | .nan, _ => false
  | _, .nan => false
  | .negInf, .negInf => false
  | .negInf, _ => true
  | .fin _, .negInf => false
  | .fin a, .fin b => decide (a < b)
  | .fin _, .posInf => true
  | .posInf, _ => false

/-- The operator `>` on `float64`. -/
def F64.gt (x y : F64) : Bool := F64.lt y x

/-- A value held in an `interface{}`, by its dynamic type: an `int`, a
`float64`, or a value of any other type (named by `typ`, shown as `text`). -/
inductive Value where
  | int (n : Int)
  | float64 (x : F64)
  | other (typ : String) (text : String)
deriving DecidableEq

/-- Expectation of `expectations.go`. -/
structure Expectation where
  actual : Value
deriving DecidableEq

/-- Expect of `expectations.go`. -/
def Expect (actual : Value) : Expectation := { actual := actual }

/-- ToBeGreaterThan of `expectations.go`; `fmtV` is the `%v` formatting of a value. -/
def Expectation.ToBeGreaterThan (fmtV : Value → String) (e : Expectation) (expected : Value) :
    Bool × String :=
  let failure :=
    (false, "Expected " ++ fmtV e.actual ++ " to be greater than " ++ fmtV expected
      ++ " but it\x27s not")
  match e.actual with
  | .int actual =>
    match expected with
    | .int exp =>
      if actual > exp then
        (true, "Got: " ++ fmtV (.int actual) ++ " (> " ++ fmtV (.int exp) ++ ")")
      else failure
    | _ => failure
  | .float64 actual =>
    match expected with
    | .float64 exp =>
      if F64.gt actual exp then
        (true, "Got: " ++ fmtV (.float64 actual) ++ " (> " ++ fmtV (.float64 exp) ++ ")")
      else failure
    | _ => failure
  | .other _ _ => failure

/-- ToBeLessThan of `expectations.go`. -/
def Expectation.ToBeLessThan (fmtV : Value → String) (e : Expectation) (expected : Value) :
    Bool × String :=
  let failure :=
    (false, "Expected " ++ fmtV e.actual ++ " to be less than " ++ fmtV expected
      ++ " but it\x27s not")
  match e.actual with
  | .int actual =>
    match expected with
    | .int exp =>
      if actual < exp then
        (true, "Got: " ++ fmtV (.int actual) ++ " (< " ++ fmtV (.int exp) ++ ")")
      else failure
    | _ => failure
  | .float64 actual =>
    match expected with
    | .float64 exp =>
      if F64.lt actual exp then
        (true, "Got: " ++ fmtV (.float64 actual) ++ " (< " ++ fmtV (.float64 exp) ++ ")")
      else failure
    | _ => failure
  | .other _ _ => failure

end expectations

/-! ## The mutex and the map, step by step -/

/-- A step of a method on the shared Engine, as far as the mutex `mu` and the
map `checks` are concerned: `e.mu.Lock()`, the deferred `e.mu.Unlock()`, the
read `check, exists := e.checks[id]`, the write `e.checks[id] = config`, and the
loop `for id, check := range e.checks`. -/
inductive Access (U W : Type) where
  | lock
  | unlock
  | load (id : U)
  | store (id : U) (config : CheckConfig U W)
  | range

section access

variable {U W : Type} [DecidableEq U]

/-- The steps of `AddChecks` for the definitions its initializers return: Lock,
one write per definition, Unlock. -/
def AddChecksSteps (configs : List (CheckConfig U W)) : List (Access U W) :=
  [.lock] ++ configs.map (fun config => .store config.Id config) ++ [.unlock]

/-- The steps of `EnableCheck` on the registry of `e`: Lock, the read, the write
if the id is present, Unlock. -/
def EnableCheckSteps (e : Engine U W) (id : U) : List (Access U W) :=
  [.lock, .load id] ++
    (match e.checks.lookup id with
      | some check => [.store id { check with Enabled := true }]
      | none => []) ++ [.unlock]

/-- The steps of `DisableCheck` on the registry of `e`. -/
def DisableCheckSteps (e : Engine U W) (id : U) : List (Access U W) :=
  [.lock, .load id] ++
    (match e.checks.lookup id with
      | some check => [.store id { check with Enabled := false }]
      | none => []) ++ [.unlock]

/-- The steps of `runChecks`: the loop over the map, and no call on `e.mu`. -/
def runChecksSteps : List (Access U W) := [.range]

/-- The steps of the handler returned by `HealthCheckHandler`: those of the
`runChecks` it calls; the rest of the handler does not touch the map or `e.mu`. -/
def HealthCheckHandlerSteps : List (Access U W) := runChecksSteps

/-- Whether every map access in a step sequence happens while the mutex is held,
`held` telling whether it is held at the start. -/
def guardedFrom : Bool → List (Access U W) → Bool
  | _, [] => true
  | _, .lock :: rest => guardedFrom true rest
  | _, .unlock :: rest => guardedFrom false rest
  | held, .load _ :: rest => held && guardedFrom held rest
  | held, .store _ _ :: rest => held && guardedFrom held rest
  | held, .range :: rest => held && guardedFrom held rest

/-- Whether a method, entered without the mutex, holds it at every map access. -/
def Guarded (steps : List (Access U W)) : Bool := guardedFrom false steps

/-- The shared Engine state two goroutines act on: the map and who holds `mu`. -/
structure Shared (U W : Type) where
  checks : Checks U W
  holder : Option Bool

/-- One step of goroutine `t`: the state after it and, for `range`, the map it
reads.  `none` when the step cannot be taken: `Lock` on a held mutex blocks. -/
def Access.exec (t : Bool) (s : Shared U W) : Access U W → Option (Shared U W × Option (Checks U W))
  | .lock => if s.holder.isSome then none else some ({ s with holder := some t }, none)
  | .unlock => some ({ s with holder := none }, none)
  | .load _ => some (s, none)
  | .store id config => some ({ s with checks := s.checks.insert id config }, none)
  | .range => some (s, some s.checks)

/-- Two goroutines run under a schedule that names, step by step, which of the
two goes next (`false` the first, `true` the second).  The result is the final
state and the maps read by `range` steps, in order; `none` if the schedule asks
for a step that cannot be taken. -/
def interleave : List Bool → Shared U W → List (Access U W) → List (Access U W) →
    Option (Shared U W × List (Checks U W))
  | [], s, _, _ => some (s, [])
  | false :: sched, s, [], p2 => interleave sched s [] p2
  | false :: sched, s, a :: p1, p2 =>
    match a.exec false s with
    | none => none
    | some (s1, seen) =>
      match interleave sched s1 p1 p2 with
      | none => none
      | some (s2, seens) => some (s2, seen.toList ++ seens)
  | true :: sched, s, p1, [] => interleave sched s p1 []
  | true :: sched, s, p1, a :: p2 =>
    match a.exec true s with
    | none => none
    | some (s1, seen) =>
      match interleave sched s1 p1 p2 with
      | none => none
      | some (s2, seens) => some (s2, seen.toList ++ seens)

end access

/-! ## Sample data, in the manner of `cmd/my_app/main.go` -/

/-- A probe that reports success and counts the call in the state. -/
def okProbe (message : String) : CheckFunc Nat := fun w => .ok ((true, message), w + 1)

/-- A probe that reports failure and counts the call in the state. -/
def failProbe (message : String) : CheckFunc Nat := fun w => .ok ((false, message), w + 1)

/-- A probe that panics. -/
def panicProbe (value : String) : CheckFunc Nat := fun _ => .error value

def sampleDisk : CheckConfig String Nat :=
  { Id := "id-disk", Typ := CheckTypeDiskSpace, Name := "Check Disk Space", Enabled := true,
    HandlerFunc := okProbe "disk fine" }

def sampleMem : CheckConfig String Nat :=
  { Id := "id-mem", Typ := CheckTypeMemoryUsage, Name := "Check Memory Usage", Enabled := false,
    HandlerFunc := failProbe "memory high" }

def sampleCpu : CheckConfig String Nat :=
  { Id := "id-cpu", Typ := CheckTypeCPUUsage, Name := "CPU Usage", Enabled := true,
    HandlerFunc := failProbe "cpu high" }

/-- A registry of three checks keyed by the text of their ids; the memory check
is disabled. -/
def sampleChecks : Checks String Nat :=
  (((∅ : Checks String Nat).insert "id-disk" sampleDisk).insert "id-mem" sampleMem).insert
    "id-cpu" sampleCpu

def sampleEngine : Engine String Nat := { checks := sampleChecks, notifier := none }

/-- A source of ids that hands out 0, 1, 2, ... : every call returns a new id. -/
def counterNew : Nat → Nat × Nat := fun n => (n, n + 1)

/-- The factory `WithCheckMemoryUsage(90)` returns when ids come from the counter
at 0. -/
def sampleFactory : CheckInit Nat Nat :=
  (WithCheckMemoryUsage counterNew (okProbe "memory fine") [] 0).1

def samplePanic : CheckConfig String Nat :=
  { Id := "id-db", Typ := CheckTypeDatabaseConnection, Name := "Check Database Connection",
    Enabled := true, HandlerFunc := panicProbe "nil pointer dereference" }

/-- A registry of three enabled checks; the probe of the database check panics.
In stored order it is visited last, after the cpu and the disk check. -/
def panicEngine : Engine String Nat :=
  { checks := (((∅ : Checks String Nat).insert "id-db" samplePanic).insert "id-disk"
      sampleDisk).insert "id-cpu" sampleCpu,
    notifier := none }

/-- A renderer that writes nothing and fails. -/
def failingRender {R : Type} : List R → String → String × Option String :=
  fun _ _ => ("", some "render failed")

/-- A registry with one healthy check. -/
def healthyEngine : Engine String Nat :=
  { checks := (∅ : Checks String Nat).insert "id-disk" sampleDisk, notifier := none }

/-- A configuration of the older API with one failing check. -/
def sampleConfiguration : config.Configuration Nat :=
  config.NewConfiguration.AddCheck "db" (failProbe "db down")

/-- A stand-in for the JSON text of the map with `status` and `checks`. -/
def sampleJson : String → List Result → String :=
  fun status results => "status=" ++ status ++ " checks=" ++ toString results.length

/-- A renderer that writes a page and succeeds. -/
def okRender : List Result → String → String × Option String :=
  fun _ status => ("<html>" ++ status ++ "</html>", none)

/-- The text of a counter id: as many letters as the number says. -/
def tallyStr : Nat → String := fun n => String.mk (List.replicate n 'u')

/-- The two memory checks of `cmd/my_app/main.go`, with ids drawn from the
counter one builder call after the other. -/
def mainMemoryNamed : CheckInit Nat Nat :=
  (WithCheckMemoryUsage counterNew (okProbe "memory fine")
    [WithCheckName "Jiggy PC Memory usage"] 0).1

def mainMemoryPlain : CheckInit Nat Nat :=
  (WithCheckMemoryUsage counterNew (okProbe "memory fine") [] 1).1

/-- An engine over counter ids with no checks. -/
def sampleFactoryEngine : Engine Nat Nat := { checks := ∅, notifier := none }

/-! ## Theorems -/

section runChecksLemmas

set_option linter.unusedSectionVars false

variable {U W : Type} [DecidableEq U]

theorem runChecksLoop_results (str : U → String) (l : List (Entry U W)) :
    ∀ (acc : List Result) (w : W) (rs : List Result) (w1 : W),
      runChecksLoop str l acc w = .ok (rs, w1) →
      ∃ rs1, rs = acc ++ rs1 ∧
        List.Forall₂ (ResultOf str) (l.filter (fun x => x.2.Enabled)) rs1 := by
  induction l with
  | nil =>
    intro acc w rs w1 h
    simp only [runChecksLoop, Except.ok.injEq, Prod.mk.injEq] at h
    exact ⟨[], by simp [h.1], by simp⟩
  | cons x rest ih =>
    obtain ⟨id, check⟩ := x
    intro acc w rs w1 h
    by_cases hen : check.Enabled = true
    · simp only [runChecksLoop, hen, if_true] at h
      cases hh : check.HandlerFunc w with
      | error p => simp [hh] at h
      | ok v =>
        obtain ⟨⟨success, message⟩, w2⟩ := v
        simp only [hh] at h
        obtain ⟨rs1, hrs, hall⟩ := ih _ _ _ _ h
        refine ⟨{ Id := str id, Name := check.Name, Success := success, Message := message }
          :: rs1, by simp [hrs], ?_⟩
        simp only [List.filter_cons, hen, if_true]
        exact List.Forall₂.cons ⟨rfl, rfl, w, w2, hh⟩ hall
    · simp only [runChecksLoop, hen] at h
      obtain ⟨rs1, hrs, hall⟩ := ih _ _ _ _ h
      refine ⟨rs1, hrs, ?_⟩
      simpa [List.filter_cons, hen] using hall

theorem runChecksLoop_returns (str : U → String) (l : List (Entry U W)) :
    ∀ (acc : List Result) (w : W), HandlersReturn l →
      ∃ rs w1, runChecksLoop str l acc w = .ok (rs, w1) := by
  induction l with
  | nil => intro acc w _; exact ⟨acc, w, rfl⟩
  | cons x rest ih =>
    obtain ⟨id, check⟩ := x
    intro acc w h
    have hrest : HandlersReturn rest := fun y hy => h y (List.mem_cons_of_mem _ hy)
    by_cases hen : check.Enabled = true
    · obtain ⟨p, w2, hp⟩ := h ⟨id, check⟩ (List.mem_cons_self _ _) hen w
      obtain ⟨success, message⟩ := p
      have hp1 : check.HandlerFunc w = .ok ((success, message), w2) := hp
      have := ih (acc ++ [(⟨str id, check.Name, success, message⟩ : Result)]) w2 hrest
      simpa only [runChecksLoop, hen, if_true, hp1] using this
    · simp only [runChecksLoop, hen]
      exact ih _ _ hrest

theorem forall₂_countP_id (str : U → String) (hinj : Function.Injective str) (k : U)
    (xs : List (Entry U W)) (rs : List Result) (h : List.Forall₂ (ResultOf str) xs rs) :
    rs.countP (fun r => r.Id = str k) = xs.countP (fun x => x.1 = k) := by
  induction h with
  | nil => rfl
  | @cons x r xs1 rs1 hxr _ ih =>
    have hiff : r.Id = str k ↔ x.1 = k := by
      rw [hxr.1]; exact hinj.eq_iff
    simp only [List.countP_cons, ih, decide_eq_true_eq, hiff]

theorem countP_enabled_key (l : List (Entry U W)) (hnd : l.NodupKeys) (k : U)
    (c : CheckConfig U W) (hm : (⟨k, c⟩ : Entry U W) ∈ l) :
    (l.filter (fun x => x.2.Enabled)).countP (fun x => x.1 = k)
      = if c.Enabled then 1 else 0 := by
  induction l with
  | nil => simp at hm
  | cons y rest ih =>
    rw [List.nodupKeys_cons] at hnd
    rcases List.mem_cons.1 hm with heq | hin
    · subst heq
      have hz : (rest.filter (fun x => x.2.Enabled)).countP (fun x => x.1 = k) = 0 := by
        rw [List.countP_eq_zero]
        intro x hx hk
        obtain ⟨xk, xc⟩ := x
        have hx1 : (⟨xk, xc⟩ : Entry U W) ∈ rest := List.mem_of_mem_filter hx
        have hk1 : xk = k := by simpa using hk
        have hx2 : xk ∈ rest.keys := List.mem_keys_of_mem hx1
        exact hnd.1 (hk1 ▸ hx2)
      by_cases hen : c.Enabled = true
      · simp [List.filter_cons, hen, List.countP_cons, hz]
      · simp [List.filter_cons, hen, hz]
    · have hne : y.1 ≠ k := by
        intro hk
        have hin2 : k ∈ rest.keys := List.mem_keys_of_mem hin
        exact hnd.1 (hk ▸ hin2)
      by_cases hen : y.2.Enabled = true
      · simp [List.filter_cons, hen, List.countP_cons, hne, ih hnd.2 hin]
      · simp [List.filter_cons, hen, ih hnd.2 hin]

/-- One Result for the key of an enabled entry, none for a disabled one. -/
theorem runChecks_count (str : U → String) (hinj : Function.Injective str) (e : Engine U W)
    (order : RangeOrder e.checks) (w : W) (rs : List Result) (w1 : W)
    (h : e.runChecks str order w = .ok (rs, w1)) (k : U) (c : CheckConfig U W)
    (hk : e.checks.lookup k = some c) :
    rs.countP (fun r => r.Id = str k) = if c.Enabled then 1 else 0 := by
  obtain ⟨rs1, hrs, hall⟩ := runChecksLoop_results str order.val [] w rs w1 h
  simp only [List.nil_append] at hrs
  subst hrs
  rw [forall₂_countP_id str hinj k _ _ hall,
    (order.property.filter _).countP_eq,
    countP_enabled_key e.checks.entries e.checks.nodupKeys k c (AList.mem_lookup_iff.1 hk)]

theorem handlersReturn_of_perm {l1 l2 : List (Entry U W)} (hp : l1.Perm l2)
    (h : HandlersReturn l2) : HandlersReturn l1 :=
  fun x hx => h x (hp.subset hx)

theorem statusLoop_eq (results : List Result) (st : String × Nat) :
    statusLoop results st
      = if results.all (fun r => r.Success) then st else ("error", StatusServiceUnavailable) := by
  induction results with
  | nil => rfl
  | cons r rest ih =>
    cases hr : r.Success <;> simp [statusLoop, hr, ih]

theorem engine_statusLoop_eq (results : List healthcheck.Result) (st : String × Nat) :
    engine.statusLoop results st
      = if results.all (fun r => r.Success) then st else ("error", StatusServiceUnavailable) := by
  induction results with
  | nil => rfl
  | cons r rest ih =>
    cases hr : r.Success <;> simp [engine.statusLoop, hr, ih]

theorem enableCheck_checks (e : Engine U W) (id : U) (c : CheckConfig U W)
    (h : e.checks.lookup id = some c) :
    (e.EnableCheck id).checks = e.checks.insert id { c with Enabled := true } := by
  simp only [Engine.EnableCheck, h]

theorem disableCheck_checks (e : Engine U W) (id : U) (c : CheckConfig U W)
    (h : e.checks.lookup id = some c) :
    (e.DisableCheck id).checks = e.checks.insert id { c with Enabled := false } := by
  simp only [Engine.DisableCheck, h]

theorem enableCheck_absent (e : Engine U W) (id : U) (h : e.checks.lookup id = none) :
    e.EnableCheck id = e := by
  simp only [Engine.EnableCheck, h]

theorem disableCheck_absent (e : Engine U W) (id : U) (h : e.checks.lookup id = none) :
    e.DisableCheck id = e := by
  simp only [Engine.DisableCheck, h]

theorem addChecksLoop_lookup (inits : List (CheckInit U W)) :
    ∀ (checks : Checks U W) (w : W) (k : U),
      (addChecksLoop inits checks w).1.lookup k
        = (((produced inits w).reverse.find? (fun c => c.Id = k)).or (checks.lookup k)) := by
  induction inits with
  | nil => intro checks w k; simp [addChecksLoop, produced]
  | cons i rest ih =>
    intro checks w k
    simp only [addChecksLoop, produced, List.reverse_cons, List.find?_append, ih]
    cases hf : (produced rest (i w).2).reverse.find? (fun c => c.Id = k) with
    | some c => simp
    | none =>
      by_cases hk : (i w).1.Id = k
      · subst hk
        simp [AList.lookup_insert]
      · have hk1 : k ≠ (i w).1.Id := fun h => hk h.symm
        simp [hk, AList.lookup_insert_ne hk1]

theorem find?_reverse_last (cfgs pre post : List (CheckConfig U W)) (c : CheckConfig U W)
    (hsplit : cfgs = pre ++ c :: post) (hlast : ∀ d ∈ post, d.Id ≠ c.Id) :
    cfgs.reverse.find? (fun d => d.Id = c.Id) = some c := by
  subst hsplit
  have hnone : post.reverse.find? (fun d => decide (d.Id = c.Id)) = none := by
    rw [List.find?_eq_none]
    intro d hd
    simpa using hlast d (List.mem_reverse.1 hd)
  simp [List.find?_append, hnone]

theorem applyOptions_eq_foldl (options : List (CheckConfigModifierOption U W))
    (config : CheckConfig U W) :
    applyOptions options config = options.foldl (fun c option => (option ()) c) config := by
  induction options generalizing config with
  | nil => rfl
  | cons o rest ih => simp only [applyOptions, List.foldl_cons, ih]

theorem applyOptions_specs (specs : List OptionSpec) :
    ∀ config : CheckConfig U W,
      applyOptions (specs.map OptionSpec.toOption) config
        = { config with
            Name := (lastName specs).getD config.Name
            Enabled := (lastStatus specs).getD config.Enabled } := by
  induction specs with
  | nil => intro config; rfl
  | cons o rest ih =>
    intro config
    simp only [List.map_cons, applyOptions, ih, lastName, lastStatus]
    cases o with
    | name n =>
      cases hn : lastName rest <;> cases hs : lastStatus rest <;>
        simp [OptionSpec.toOption, WithCheckName]
    | status b =>
      cases hn : lastName rest <;> cases hs : lastStatus rest <;>
        simp [OptionSpec.toOption, WithCheckStatus]

theorem builder_run_eq (b : Builder) (uuidNew : W → U × W) (handlerFunc : CheckFunc W)
    (options : List (CheckConfigModifierOption U W)) (w : W) :
    b.run uuidNew handlerFunc options w
      = (fun s => (applyOptions options
          { Id := (uuidNew w).1, Typ := b.checkType, Name := b.defaultName, Enabled := true,
            HandlerFunc := handlerFunc }, s), (uuidNew w).2) := by
  cases b <;> rfl

theorem runChecksLoop_panics (str : U → String) (l : List (Entry U W)) :
    ∀ (acc : List Result) (w : W),
      (∃ x ∈ l, x.2.Enabled = true ∧ ∀ s, ∃ p, x.2.HandlerFunc s = .error p) →
      ∃ p, runChecksLoop str l acc w = .error p := by
  induction l with
  | nil => intro acc w h; obtain ⟨x, hx, _⟩ := h; simp at hx
  | cons y rest ih =>
    obtain ⟨id, check⟩ := y
    intro acc w h
    obtain ⟨x, hx, hen, hpanic⟩ := h
    by_cases hy : check.Enabled = true
    · cases hh : check.HandlerFunc w with
      | error p => exact ⟨p, by simp only [runChecksLoop, hy, if_true, hh]⟩
      | ok v =>
        obtain ⟨⟨success, message⟩, w2⟩ := v
        rcases List.mem_cons.1 hx with heq | hin
        · subst heq
          obtain ⟨p, hp⟩ := hpanic w
          simp only [hh] at hp
          cases hp
        · obtain ⟨p, hp⟩ := ih (acc ++ [(⟨str id, check.Name, success, message⟩ : Result)]) w2
            ⟨x, hin, hen, hpanic⟩
          exact ⟨p, by simpa only [runChecksLoop, hy, if_true, hh] using hp⟩
    · rcases List.mem_cons.1 hx with heq | hin
      · subst heq
        exact absurd hen hy
      · obtain ⟨p, hp⟩ := ih acc w ⟨x, hin, hen, hpanic⟩
        exact ⟨p, by simpa only [runChecksLoop, hy] using hp⟩

theorem runChecksLoop_error_source (str : U → String) (l : List (Entry U W)) :
    ∀ (acc : List Result) (w : W) (p : String), runChecksLoop str l acc w = .error p →
      ∃ x ∈ l, x.2.Enabled = true ∧ ∃ s, x.2.HandlerFunc s = .error p := by
  induction l with
  | nil => intro acc w p h; simp [runChecksLoop] at h
  | cons y rest ih =>
    obtain ⟨id, check⟩ := y
    intro acc w p h
    by_cases hy : check.Enabled = true
    · cases hh : check.HandlerFunc w with
      | error q =>
        simp only [runChecksLoop, hy, if_true, hh, Except.error.injEq] at h
        subst h
        exact ⟨⟨id, check⟩, List.mem_cons_self _ _, hy, w, hh⟩
      | ok v =>
        obtain ⟨⟨success, message⟩, w2⟩ := v
        simp only [runChecksLoop, hy, if_true, hh] at h
        obtain ⟨x, hx, hrest⟩ := ih _ _ p h
        exact ⟨x, List.mem_cons_of_mem _ hx, hrest⟩
    · simp only [runChecksLoop, hy] at h
      obtain ⟨x, hx, hrest⟩ := ih _ _ p h
      exact ⟨x, List.mem_cons_of_mem _ hx, hrest⟩

theorem header_get_set (h : Header) (key value : String) : (h.Set key value).Get key = value := by
  simp [Header.Set, Header.Get]

theorem tallyStr_injective : Function.Injective tallyStr := by
  intro a b h
  have h1 : List.replicate a 'u' = List.replicate b 'u' := congrArg String.data h
  simpa using congrArg List.length h1

theorem deriveStatus_cases (results : List Result) :
    deriveStatus results = ("ok", 200) ∨ deriveStatus results = ("error", 503) := by
  have h : deriveStatus results
      = if results.all (fun r => r.Success) then ("ok", StatusOK)
        else ("error", StatusServiceUnavailable) := statusLoop_eq results _
  rw [h]
  by_cases hall : results.all (fun r => r.Success) = true
  · exact Or.inl (by simp only [hall, if_true]; rfl)
  · exact Or.inr (by simp only [hall]; rfl)

theorem guardedFrom_stores (configs : List (CheckConfig U W)) :
    guardedFrom true (configs.map (fun config => Access.store config.Id config) ++ [.unlock])
      = true := by
  induction configs with
  | nil => rfl
  | cons c rest ih => simpa [guardedFrom] using ih

theorem f64_lt_asymm (x y : expectations.F64) :
    ¬ (expectations.F64.lt x y = true ∧ expectations.F64.lt y x = true) := by
  cases x <;> cases y <;> simp [expectations.F64.lt]
  intro h
  exact le_of_lt h

theorem f64_lt_irrefl (x : expectations.F64) : expectations.F64.lt x x = false := by
  cases x <;> simp [expectations.F64.lt]

end runChecksLemmas

section claims

set_option linter.unusedSectionVars false

variable {U W : Type} [DecidableEq U]

/-- C1: whenever `runChecks` returns, its list pairs off with the enabled entries
in visiting order (each Result carries the key as a string, the entry's Name and
a pair its HandlerFunc returned), the enabled entries visited are a permutation
of the registry's enabled entries, the length is the number of enabled entries,
and (ids having distinct strings) the key of a registry entry has one Result if
the entry is enabled and none if it is disabled.  It does return when no enabled
handler panics. -/
theorem runChecks_enabled_image (str : U → String) (e : Engine U W)
    (order : RangeOrder e.checks) (w : W) :
    (∀ rs w1, e.runChecks str order w = .ok (rs, w1) →
      List.Forall₂ (ResultOf str) (order.val.filter (fun x => x.2.Enabled)) rs ∧
      (order.val.filter (fun x => x.2.Enabled)).Perm
        (e.checks.entries.filter (fun x => x.2.Enabled)) ∧
      rs.length = e.checks.entries.countP (fun x => x.2.Enabled) ∧
      (Function.Injective str → ∀ k c, e.checks.lookup k = some c →
        rs.countP (fun r => r.Id = str k) = if c.Enabled then 1 else 0)) ∧
    (HandlersReturn e.checks.entries → ∃ rs w1, e.runChecks str order w = .ok (rs, w1)) := by
  refine ⟨fun rs w1 h => ?_, fun hret => ?_⟩
  · obtain ⟨rs1, hrs, hall⟩ := runChecksLoop_results str order.val [] w rs w1 h
    simp only [List.nil_append] at hrs
    subst hrs
    refine ⟨hall, order.property.filter _, ?_, fun hinj k c hk => ?_⟩
    · rw [← hall.length_eq, (order.property.filter _).length_eq, List.countP_eq_length_filter]
    · exact runChecks_count str hinj e order w _ w1 h k c hk
  · exact runChecksLoop_returns str order.val [] w (handlersReturn_of_perm order.property hret)

/-- C1 at the sample registry: the run returns two Results, and the disabled
memory check has none. -/
theorem runChecks_enabled_image_witness :
    HandlersReturn sampleEngine.checks.entries ∧
    ∃ rs w1, sampleEngine.runChecks id (RangeOrder.stored _) 0 = .ok (rs, w1) ∧
      rs.length = 2 ∧ rs.countP (fun r => r.Id = "id-mem") = 0 ∧
      rs.countP (fun r => r.Id = "id-cpu") = 1 := by
  have hent : sampleEngine.checks.entries
      = [⟨"id-cpu", sampleCpu⟩, ⟨"id-mem", sampleMem⟩, ⟨"id-disk", sampleDisk⟩] := rfl
  have hret : HandlersReturn sampleEngine.checks.entries := by
    intro x hx _ s
    rw [hent] at hx
    simp only [List.mem_cons, List.mem_singleton, List.not_mem_nil, or_false] at hx
    rcases hx with rfl | rfl | rfl <;> exact ⟨_, _, rfl⟩
  have hthm := runChecks_enabled_image id sampleEngine (RangeOrder.stored _) 0
  obtain ⟨rs, w1, hrun⟩ := hthm.2 hret
  obtain ⟨_, _, hlen, hcount⟩ := hthm.1 rs w1 hrun
  refine ⟨hret, rs, w1, hrun, hlen.trans rfl, ?_, ?_⟩
  · exact (hcount Function.injective_id "id-mem" _ rfl).trans rfl
  · exact (hcount Function.injective_id "id-cpu" _ rfl).trans rfl

/-- C2: the status derived from a result list is ("ok", 200) exactly when every
Result has Success true, and ("error", 503) exactly when some Result, at any
position, has Success false; it is one reduction over the whole list, which the
early break does not alter.  The same holds for the handler of `engine/engine.go`. -/
theorem deriveStatus_ok_iff_all_success (results : List Result)
    (old : List healthcheck.Result) :
    (deriveStatus results
        = if results.all (fun r => r.Success) then ("ok", 200) else ("error", 503)) ∧
    (deriveStatus results = ("ok", 200) ↔ ∀ r ∈ results, r.Success = true) ∧
    (deriveStatus results = ("error", 503) ↔ ∃ r ∈ results, r.Success = false) ∧
    deriveStatus [] = ("ok", 200) ∧
    (engine.deriveStatus old = ("ok", 200) ↔ ∀ r ∈ old, r.Success = true) ∧
    (engine.deriveStatus old = ("error", 503) ↔ ∃ r ∈ old, r.Success = false) := by
  have h1 : deriveStatus results
      = if results.all (fun r => r.Success) then ("ok", 200) else ("error", 503) :=
    statusLoop_eq results _
  have h2 : engine.deriveStatus old
      = if old.all (fun r => r.Success) then ("ok", 200) else ("error", 503) :=
    engine_statusLoop_eq old _
  refine ⟨h1, ?_, ?_, rfl, ?_, ?_⟩
  · rw [h1]
    by_cases hall : results.all (fun r => r.Success) = true
    · simp only [hall, if_true, true_iff]
      simpa using hall
    · simp only [hall]
      simpa using hall
  · rw [h1]
    by_cases hall : results.all (fun r => r.Success) = true
    · simp only [hall, if_true]
      simp at hall
      simpa using hall
    · simp only [hall]
      simpa using hall
  · rw [h2]
    by_cases hall : old.all (fun r => r.Success) = true
    · simp only [hall, if_true, true_iff]
      simpa using hall
    · simp only [hall]
      simpa using hall
  · rw [h2]
    by_cases hall : old.all (fun r => r.Success) = true
    · simp only [hall, if_true]
      simp at hall
      simpa using hall
    · simp only [hall]
      simpa using hall

/-- C3: for an id present in the registry (ids having distinct strings), every
run after DisableCheck(id) that returns has no Result whose Id is that id, and
every run after a following EnableCheck(id) that returns has exactly one,
whatever the flag was before; each run does return when no enabled handler of
the registry it runs on panics. -/
theorem disable_then_enable_runChecks (str : U → String) (hinj : Function.Injective str)
    (e : Engine U W) (id : U) (hid : id ∈ e.checks) :
    (∀ (order : RangeOrder (e.DisableCheck id).checks) w rs w1,
      (e.DisableCheck id).runChecks str order w = .ok (rs, w1) →
        rs.countP (fun r => r.Id = str id) = 0 ∧ ∀ r ∈ rs, r.Id ≠ str id) ∧
    (∀ (order : RangeOrder ((e.DisableCheck id).EnableCheck id).checks) w rs w1,
      ((e.DisableCheck id).EnableCheck id).runChecks str order w = .ok (rs, w1) →
        rs.countP (fun r => r.Id = str id) = 1) ∧
    (HandlersReturn (e.DisableCheck id).checks.entries →
      ∀ (order : RangeOrder (e.DisableCheck id).checks) w,
        ∃ rs w1, (e.DisableCheck id).runChecks str order w = .ok (rs, w1)) ∧
    (HandlersReturn ((e.DisableCheck id).EnableCheck id).checks.entries →
      ∀ (order : RangeOrder ((e.DisableCheck id).EnableCheck id).checks) w,
        ∃ rs w1, ((e.DisableCheck id).EnableCheck id).runChecks str order w = .ok (rs, w1)) := by
  obtain ⟨c, hc⟩ := Option.isSome_iff_exists.1 (AList.lookup_isSome.2 hid)
  have hd : (e.DisableCheck id).checks.lookup id = some { c with Enabled := false } := by
    rw [disableCheck_checks e id c hc, AList.lookup_insert]
  have he : ((e.DisableCheck id).EnableCheck id).checks.lookup id
      = some { c with Enabled := true } := by
    rw [enableCheck_checks _ id _ hd, AList.lookup_insert]
  refine ⟨fun order w rs w1 h => ?_, fun order w rs w1 h => ?_, fun hret order w => ?_,
    fun hret order w => ?_⟩
  · have h0 : rs.countP (fun r => r.Id = str id) = 0 := by
      simpa using runChecks_count str hinj _ order w rs w1 h id _ hd
    refine ⟨h0, fun r hr hrid => ?_⟩
    rw [List.countP_eq_zero] at h0
    exact h0 r hr (by simpa using hrid)
  · simpa using runChecks_count str hinj _ order w rs w1 h id _ he
  · exact runChecksLoop_returns str order.val [] w (handlersReturn_of_perm order.property hret)
  · exact runChecksLoop_returns str order.val [] w (handlersReturn_of_perm order.property hret)

/-- C3 at the sample registry, for the enabled cpu check: the run after
DisableCheck returns and has no Result for it, the run after the following
EnableCheck returns and has one. -/
theorem disable_then_enable_runChecks_witness :
    "id-cpu" ∈ sampleEngine.checks ∧
    (∃ rs w1, (sampleEngine.DisableCheck "id-cpu").runChecks id (RangeOrder.stored _) 0
        = .ok (rs, w1) ∧ rs.countP (fun r => r.Id = "id-cpu") = 0) ∧
    (∃ rs w1, ((sampleEngine.DisableCheck "id-cpu").EnableCheck "id-cpu").runChecks id
        (RangeOrder.stored _) 0 = .ok (rs, w1) ∧ rs.countP (fun r => r.Id = "id-cpu") = 1) := by
  have hid : "id-cpu" ∈ sampleEngine.checks := AList.lookup_isSome.1 (by rfl)
  have hthm := disable_then_enable_runChecks id Function.injective_id sampleEngine "id-cpu" hid
  have hd : (sampleEngine.DisableCheck "id-cpu").runChecks id (RangeOrder.stored _) 0
      = .ok ([⟨"id-disk", "Check Disk Space", true, "disk fine"⟩], 1) := rfl
  have he : ((sampleEngine.DisableCheck "id-cpu").EnableCheck "id-cpu").runChecks id
      (RangeOrder.stored _) 0
      = .ok ([⟨"id-cpu", "CPU Usage", false, "cpu high"⟩,
          ⟨"id-disk", "Check Disk Space", true, "disk fine"⟩], 2) := rfl
  exact ⟨hid, ⟨_, _, hd, (hthm.1 _ 0 _ _ hd).1⟩, ⟨_, _, he, hthm.2.1 _ 0 _ _ he⟩⟩

/-- C4: for an id that is not a key of the registry, EnableCheck and DisableCheck
return the engine unchanged (same registry, same notifier); so do EnableCheck
and DisableCheck of `config/config.go` for an absent name.  The operations have
no error result. -/
theorem enable_disable_absent_noop (e : Engine U W) (id : U) (hid : id ∉ e.checks)
    (cfg : config.Configuration W) (name : String) (hname : name ∉ cfg.Checks) :
    e.EnableCheck id = e ∧ e.DisableCheck id = e ∧
    cfg.EnableCheck name = cfg ∧ cfg.DisableCheck name = cfg := by
  have h1 : e.checks.lookup id = none := AList.lookup_eq_none.2 hid
  have h2 : cfg.Checks.lookup name = none := AList.lookup_eq_none.2 hname
  refine ⟨enableCheck_absent e id h1, disableCheck_absent e id h1, ?_, ?_⟩
  · simp only [config.Configuration.EnableCheck, h2]
  · simp only [config.Configuration.DisableCheck, h2]

/-- C4 at the sample registry and an empty configuration, for ids they do not hold. -/
theorem enable_disable_absent_noop_witness :
    sampleEngine.EnableCheck "id-none" = sampleEngine ∧
    sampleEngine.DisableCheck "id-none" = sampleEngine ∧
    (config.NewConfiguration : config.Configuration Nat).EnableCheck "db" = config.NewConfiguration ∧
    (config.NewConfiguration : config.Configuration Nat).DisableCheck "db"
      = config.NewConfiguration :=
  enable_disable_absent_noop sampleEngine "id-none" (AList.lookup_eq_none.1 (by rfl))
    config.NewConfiguration "db" (AList.not_mem_empty _)

/-- C10: for an id present in the registry with entry `c`, EnableCheck and
DisableCheck leave under that id the entry `c` with only Enabled set (to true,
to false); every other key keeps its entry, the key set is the same, the
notifier is the same, and doing either operation twice equals doing it once. -/
theorem enable_disable_only_flag (e : Engine U W) (id : U) (hid : id ∈ e.checks) :
    ∃ c, e.checks.lookup id = some c ∧
      (e.EnableCheck id).checks.lookup id = some { c with Enabled := true } ∧
      (e.DisableCheck id).checks.lookup id = some { c with Enabled := false } ∧
      (∀ k, k ≠ id → (e.EnableCheck id).checks.lookup k = e.checks.lookup k ∧
        (e.DisableCheck id).checks.lookup k = e.checks.lookup k) ∧
      ((e.EnableCheck id).checks.keys.Perm e.checks.keys ∧
        (e.DisableCheck id).checks.keys.Perm e.checks.keys) ∧
      (∀ k, (k ∈ (e.EnableCheck id).checks ↔ k ∈ e.checks) ∧
        (k ∈ (e.DisableCheck id).checks ↔ k ∈ e.checks)) ∧
      ((e.EnableCheck id).notifier = e.notifier ∧ (e.DisableCheck id).notifier = e.notifier) ∧
      (e.EnableCheck id).EnableCheck id = e.EnableCheck id ∧
      (e.DisableCheck id).DisableCheck id = e.DisableCheck id := by
  obtain ⟨c, hc⟩ := Option.isSome_iff_exists.1 (AList.lookup_isSome.2 hid)
  have hen := enableCheck_checks e id c hc
  have hdis := disableCheck_checks e id c hc
  have hkeys : ∀ c1 : CheckConfig U W, (e.checks.insert id c1).keys.Perm e.checks.keys := by
    intro c1
    rw [AList.keys_insert]
    exact (List.perm_cons_erase (AList.mem_keys.1 hid)).symm
  have hmem : ∀ (c1 : CheckConfig U W) (k : U), k ∈ e.checks.insert id c1 ↔ k ∈ e.checks := by
    intro c1 k
    rw [AList.mem_insert]
    exact ⟨fun h => h.elim (fun hk => hk ▸ hid) (fun h => h), fun h => Or.inr h⟩
  refine ⟨c, hc, ?_, ?_, ?_, ?_, ?_, ?_, ?_, ?_⟩
  · rw [hen, AList.lookup_insert]
  · rw [hdis, AList.lookup_insert]
  · intro k hk
    rw [hen, hdis]
    exact ⟨AList.lookup_insert_ne hk, AList.lookup_insert_ne hk⟩
  · rw [hen, hdis]
    exact ⟨hkeys _, hkeys _⟩
  · intro k
    rw [hen, hdis]
    exact ⟨hmem _ k, hmem _ k⟩
  · simp only [Engine.EnableCheck, Engine.DisableCheck, hc, and_self]
  · simp only [Engine.EnableCheck, hc, AList.lookup_insert, AList.insert_insert]
  · simp only [Engine.DisableCheck, hc, AList.lookup_insert, AList.insert_insert]

/-- C10 at the sample registry, for the disabled memory check. -/
theorem enable_disable_only_flag_witness :
    "id-mem" ∈ sampleEngine.checks ∧
    (sampleEngine.EnableCheck "id-mem").checks.lookup "id-mem"
      = some { sampleMem with Enabled := true } ∧
    (sampleEngine.EnableCheck "id-mem").checks.lookup "id-cpu"
      = sampleEngine.checks.lookup "id-cpu" := by
  have hid : "id-mem" ∈ sampleEngine.checks := AList.lookup_isSome.1 (by rfl)
  obtain ⟨c, hc, hen, _, hother, _⟩ := enable_disable_only_flag sampleEngine "id-mem" hid
  have hc1 : sampleEngine.checks.lookup "id-mem" = some sampleMem := rfl
  have hcc : c = sampleMem := Option.some.inj (hc.symm.trans hc1)
  subst hcc
  exact ⟨hid, hen, (hother "id-cpu" (by decide)).1⟩

/-- C9: after AddChecks the registry holds, under each key, the last definition
of the batch with that Id if there is one and the old entry otherwise.  So its
keys are the old keys together with the produced Ids, every produced definition
after which the batch has no other with the same Id is stored under its own Id,
and an old entry whose key is not a produced Id is unchanged.  NewEngine is
AddChecks on the empty registry with no notifier. -/
theorem addChecks_registry (e : Engine U W) (inits : List (CheckInit U W)) (w : W) :
    (∀ k, (e.AddChecks inits w).1.checks.lookup k
      = (((produced inits w).reverse.find? (fun c => c.Id = k)).or (e.checks.lookup k))) ∧
    (∀ k, k ∈ (e.AddChecks inits w).1.checks ↔
      k ∈ e.checks ∨ k ∈ (produced inits w).map (fun c => c.Id)) ∧
    (∀ pre c post, produced inits w = pre ++ c :: post → (∀ d ∈ post, d.Id ≠ c.Id) →
      (e.AddChecks inits w).1.checks.lookup c.Id = some c) ∧
    (∀ c ∈ produced inits w, ∃ c1 ∈ produced inits w, c1.Id = c.Id ∧
      (e.AddChecks inits w).1.checks.lookup c.Id = some c1) ∧
    (∀ k, k ∉ (produced inits w).map (fun c => c.Id) →
      (e.AddChecks inits w).1.checks.lookup k = e.checks.lookup k) ∧
    (e.AddChecks inits w).1.notifier = e.notifier ∧
    NewEngine inits w
      = ({ checks := ∅, notifier := none } : Engine U W).AddChecks inits w := by
  have hlook : ∀ k, (e.AddChecks inits w).1.checks.lookup k
      = (((produced inits w).reverse.find? (fun c => c.Id = k)).or (e.checks.lookup k)) :=
    fun k => addChecksLoop_lookup inits e.checks w k
  refine ⟨hlook, fun k => ?_, fun pre c post hsplit hlast => ?_, fun c hc => ?_,
    fun k hk => ?_, rfl, rfl⟩
  · rw [← AList.lookup_isSome, ← AList.lookup_isSome, hlook k]
    cases hf : (produced inits w).reverse.find? (fun c => c.Id = k) with
    | some c =>
      have hck : c.Id = k := by simpa using List.find?_some hf
      have hcm : c ∈ produced inits w := List.mem_reverse.1 (List.mem_of_find?_eq_some hf)
      simp only [Option.or_some, Option.isSome_some, true_iff]
      exact Or.inr (List.mem_map.2 ⟨c, hcm, hck⟩)
    | none =>
      simp only [Option.none_or]
      rw [List.find?_eq_none] at hf
      refine ⟨fun h => Or.inl h, fun h => h.elim (fun h => h) (fun h => ?_)⟩
      obtain ⟨c, hcm, hck⟩ := List.mem_map.1 h
      exact absurd (by simpa using hck) (hf c (List.mem_reverse.2 hcm))
  · rw [hlook c.Id, find?_reverse_last _ pre post c hsplit hlast, Option.or_some]
  · have hsome : ((produced inits w).reverse.find? (fun d => d.Id = c.Id)).isSome = true := by
      rw [List.find?_isSome]
      exact ⟨c, List.mem_reverse.2 hc, by simp⟩
    obtain ⟨c1, hc1⟩ := Option.isSome_iff_exists.1 hsome
    refine ⟨c1, List.mem_reverse.1 (List.mem_of_find?_eq_some hc1), ?_, ?_⟩
    · simpa using List.find?_some hc1
    · rw [hlook c.Id, hc1, Option.or_some]
  · have hnone : (produced inits w).reverse.find? (fun c => decide (c.Id = k)) = none := by
      rw [List.find?_eq_none]
      intro c hc hck
      exact hk (List.mem_map.2 ⟨c, List.mem_reverse.1 hc, by simpa using hck⟩)
    rw [hlook k, hnone, Option.none_or]

/-- C9 at the sample registry, for a batch of two definitions with the same Id:
the later one is stored, and the disk check is unchanged. -/
theorem addChecks_registry_witness :
    (sampleEngine.AddChecks [fun s => (sampleMem, s), fun s => ({ sampleMem with Name := "Heap" }, s)]
        0).1.checks.lookup "id-mem" = some { sampleMem with Name := "Heap" } ∧
    (sampleEngine.AddChecks [fun s => (sampleMem, s), fun s => ({ sampleMem with Name := "Heap" }, s)]
        0).1.checks.lookup "id-disk" = sampleEngine.checks.lookup "id-disk" := by
  have hthm := addChecks_registry sampleEngine
    [fun s => (sampleMem, s), fun s => ({ sampleMem with Name := "Heap" }, s)] 0
  refine ⟨hthm.2.2.1 [sampleMem] { sampleMem with Name := "Heap" } [] rfl (by simp), ?_⟩
  exact hthm.2.2.2.2.1 "id-disk" (by decide)

/-- C7: for each of the nine builders and every list of WithCheckName and
WithCheckStatus options, the definition the factory returns is the builder's
literal (fresh id, the builder's Type, its default Name, Enabled true, its
handler) with the options folded over it from left to right: Name is the
argument of the last WithCheckName (else the default), Enabled the argument of
the last WithCheckStatus (else true), and Id, Type and HandlerFunc are those of
the literal. -/
theorem builder_options_fold (b : Builder) (uuidNew : W → U × W) (handlerFunc : CheckFunc W)
    (specs : List OptionSpec) (w s : W) :
    ((b.run uuidNew handlerFunc (specs.map OptionSpec.toOption) w).1 s).1
      = specs.foldl (fun c o => (o.toOption ()) c)
          { Id := (uuidNew w).1, Typ := b.checkType, Name := b.defaultName, Enabled := true,
            HandlerFunc := handlerFunc } ∧
    ((b.run uuidNew handlerFunc (specs.map OptionSpec.toOption) w).1 s).1.Name
      = (lastName specs).getD b.defaultName ∧
    ((b.run uuidNew handlerFunc (specs.map OptionSpec.toOption) w).1 s).1.Enabled
      = (lastStatus specs).getD true ∧
    ((b.run uuidNew handlerFunc (specs.map OptionSpec.toOption) w).1 s).1.Id = (uuidNew w).1 ∧
    ((b.run uuidNew handlerFunc (specs.map OptionSpec.toOption) w).1 s).1.Typ = b.checkType ∧
    ((b.run uuidNew handlerFunc (specs.map OptionSpec.toOption) w).1 s).1.HandlerFunc
      = handlerFunc := by
  rw [builder_run_eq]
  refine ⟨?_, ?_, ?_, ?_, ?_, ?_⟩
  · simp only [applyOptions_eq_foldl, List.foldl_map]
  all_goals simp only [applyOptions_specs]

/-- C5, as stated, fails: with ids drawn from a counter (so that every call of
`uuid.New` gives a new id), two successive invocations of the factory returned
by `WithCheckMemoryUsage(90)` return the same Id, and NewEngine given that
factory twice has a single entry. -/
theorem factory_new_identity_counterexample :
    (sampleFactory 1).1.Id = (sampleFactory (sampleFactory 1).2).1.Id ∧
    (NewEngine [sampleFactory, sampleFactory] 1).1.checks.keys = [0] := by
  exact ⟨rfl, rfl⟩

/-- C5 amended: the identity is drawn once, by the builder call; the factory it
returns gives back the same definition at every invocation and leaves the state
as it is, so two invocations have the same Id, and passing the factory twice to
AddChecks or NewEngine yields the registry that passing it once yields, with one
entry for it.  With WithCheckName and WithCheckStatus options that Id is the one
`uuid.New` returned to the builder. -/
theorem factory_same_identity (b : Builder) (uuidNew : W → U × W) (handlerFunc : CheckFunc W)
    (options : List (CheckConfigModifierOption U W)) (specs : List OptionSpec) (w : W) :
    (∀ s1 s2, ((b.run uuidNew handlerFunc options w).1 s1).1
      = ((b.run uuidNew handlerFunc options w).1 s2).1) ∧
    (∀ s, ((b.run uuidNew handlerFunc options w).1 s).2 = s) ∧
    (∀ s1 s2, ((b.run uuidNew handlerFunc options w).1 s1).1.Id
      = ((b.run uuidNew handlerFunc options w).1 s2).1.Id) ∧
    (∀ (e : Engine U W) s,
      e.AddChecks [(b.run uuidNew handlerFunc options w).1, (b.run uuidNew handlerFunc options w).1] s
        = e.AddChecks [(b.run uuidNew handlerFunc options w).1] s) ∧
    (∀ s, (NewEngine
        [(b.run uuidNew handlerFunc options w).1, (b.run uuidNew handlerFunc options w).1] s).1.checks.keys
        = [((b.run uuidNew handlerFunc options w).1 s).1.Id]) ∧
    (∀ s, ((b.run uuidNew handlerFunc (specs.map OptionSpec.toOption) w).1 s).1.Id
      = (uuidNew w).1) ∧
    (b.run uuidNew handlerFunc options w).2 = (uuidNew w).2 := by
  refine ⟨?_, ?_, ?_, ?_, ?_, ?_, ?_⟩
  · intro s1 s2; rw [builder_run_eq]
  · intro s; rw [builder_run_eq]
  · intro s1 s2; rw [builder_run_eq]
  · intro e s
    rw [builder_run_eq]
    simp only [Engine.AddChecks, addChecksLoop, AList.insert_insert]
  · intro s
    rw [builder_run_eq]
    simp only [NewEngine, addChecksLoop, AList.insert_insert, AList.keys_insert, AList.keys_empty,
      List.erase_nil]
  · intro s
    rw [builder_run_eq]
    simp only [applyOptions_specs]
  · rw [builder_run_eq]

/-- C6, as stated, fails: in the registry whose database probe panics, the run
visits the cpu and the disk check, then the panic of the database probe leaves
`runChecks`; no list of Results is returned. -/
theorem runChecks_panic_counterexample :
    panicEngine.runChecks id (RangeOrder.stored _) 0 = .error "nil pointer dereference" ∧
    ¬ ∃ rs w1, panicEngine.runChecks id (RangeOrder.stored _) 0 = .ok (rs, w1) := by
  have h : panicEngine.runChecks id (RangeOrder.stored _) 0
      = .error "nil pointer dereference" := rfl
  refine ⟨h, ?_⟩
  rintro ⟨rs, w1, hok⟩
  rw [h] at hok
  cases hok

/-- C6 amended: when some enabled check has a predicate that panics whenever it
is invoked, `runChecks` returns no list: the run ends in a panic, and that panic
is one raised by the predicate of an enabled check of the registry. -/
theorem runChecks_panic_propagates (str : U → String) (e : Engine U W)
    (order : RangeOrder e.checks) (w : W)
    (h : ∃ x ∈ e.checks.entries, x.2.Enabled = true ∧ ∀ s, ∃ p, x.2.HandlerFunc s = .error p) :
    (∃ p, e.runChecks str order w = .error p ∧
      ∃ x ∈ e.checks.entries, x.2.Enabled = true ∧ ∃ s, x.2.HandlerFunc s = .error p) ∧
    ¬ ∃ rs w1, e.runChecks str order w = .ok (rs, w1) := by
  obtain ⟨x, hx, hen, hpanic⟩ := h
  obtain ⟨p, hp⟩ := runChecksLoop_panics str order.val [] w
    ⟨x, order.property.symm.subset hx, hen, hpanic⟩
  have hp1 : e.runChecks str order w = .error p := hp
  refine ⟨⟨p, hp1, ?_⟩, ?_⟩
  · obtain ⟨y, hy, hrest⟩ := runChecksLoop_error_source str order.val [] w p hp
    exact ⟨y, order.property.subset hy, hrest⟩
  · rintro ⟨rs, w1, hok⟩
    rw [hp1] at hok
    cases hok

/-- C6 amended, at the registry whose database probe panics. -/
theorem runChecks_panic_propagates_witness :
    (∃ x ∈ panicEngine.checks.entries,
      x.2.Enabled = true ∧ ∀ s, ∃ p, x.2.HandlerFunc s = .error p) ∧
    ¬ ∃ rs w1, panicEngine.runChecks id (RangeOrder.stored _) 0 = .ok (rs, w1) := by
  have hpre : ∃ x ∈ panicEngine.checks.entries,
      x.2.Enabled = true ∧ ∀ s, ∃ p, x.2.HandlerFunc s = .error p :=
    ⟨⟨"id-db", samplePanic⟩, AList.mem_lookup_iff.1 (by rfl), rfl, fun _ => ⟨_, rfl⟩⟩
  exact ⟨hpre, (runChecks_panic_propagates id panicEngine (RangeOrder.stored _) 0 hpre).2⟩

/-- C8, evaluated: with a renderer that fails, the HTML branch has already sent
the health status code (200 for the healthy registry, 503 for the sample one)
with Content-Type text/html before `http.Error` runs, so the 500 of `http.Error`
is not the status code of the response; the error text is appended to the body.
The handler of `engine/engine.go` does the same. -/
theorem render_error_status_not_500 :
    healthyEngine.HealthCheckHandler id (fun status _ => status) failingRender
        (RangeOrder.stored _) "" ResponseWriter.new 0
      = .ok ({ header := [("X-Content-Type-Options", "nosniff"),
                 ("Content-Type", "text/plain; charset=utf-8")],
               statusCode := some 200,
               sentHeader := [("Content-Type", "text/html")],
               body := "render failed\n" }, 1) ∧
    sampleEngine.HealthCheckHandler id (fun status _ => status) failingRender
        (RangeOrder.stored _) "text/html" ResponseWriter.new 0
      = .ok ({ header := [("X-Content-Type-Options", "nosniff"),
                 ("Content-Type", "text/plain; charset=utf-8")],
               statusCode := some 503,
               sentHeader := [("Content-Type", "text/html")],
               body := "render failed\n" }, 2) ∧
    engine.HealthCheckHandler (fun status _ => status) failingRender sampleConfiguration
        (RangeOrder.stored _) "" ResponseWriter.new 0
      = .ok ({ header := [("X-Content-Type-Options", "nosniff"),
                 ("Content-Type", "text/plain; charset=utf-8")],
               statusCode := some 503,
               sentHeader := [("Content-Type", "text/html")],
               body := "render failed\n" }, 1) := by
  exact ⟨rfl, rfl, rfl⟩

/-- C12: on a response nothing was sent on yet, when the run of the checks
returns `results`, the handler returns having sent the status code derived from
`results` (200 with status "ok", 503 with status "error") in either branch.  The
response is sent with Content-Type application/json, its body the JSON text of
`status` and `results`, exactly when Accept is the string "application/json";
for every other value, the empty one of an absent header included, it is sent
with Content-Type text/html and its body starts with what the renderer wrote. -/
theorem handler_content_negotiation (str : U → String)
    (jsonEncode : String → List Result → String)
    (render : List Result → String → String × Option String)
    (e : Engine U W) (order : RangeOrder e.checks) (accept : String)
    (rw : ResponseWriter) (w : W) (results : List Result) (w1 : W)
    (hfresh : rw.statusCode = none)
    (hrun : e.runChecks str order w = .ok (results, w1)) :
    ∃ rw1, e.HealthCheckHandler str jsonEncode render order accept rw w = .ok (rw1, w1) ∧
      rw1.statusCode = some (deriveStatus results).2 ∧
      (deriveStatus results = ("ok", 200) ∨ deriveStatus results = ("error", 503)) ∧
      (accept = "application/json" →
        rw1.sentHeader.Get "Content-Type" = "application/json" ∧
        rw1.body = rw.body ++ jsonEncode (deriveStatus results).1 results) ∧
      (accept ≠ "application/json" →
        rw1.sentHeader.Get "Content-Type" = "text/html" ∧
        rw1.body = rw.body ++ (render results (deriveStatus results).1).1 ++
          (match (render results (deriveStatus results).1).2 with
            | some err => err ++ "\n"
            | none => "")) ∧
      (rw1.sentHeader.Get "Content-Type" = "application/json" ↔ accept = "application/json") := by
  by_cases hacc : accept = "application/json"
  · refine ⟨_, by simp only [Engine.HealthCheckHandler, hrun, hacc, if_true]; rfl, ?_,
      deriveStatus_cases results, ?_, ?_, ?_⟩
    · simp [ResponseWriter.Write, ResponseWriter.WriteHeader, ResponseWriter.SetHeader, hfresh]
    · intro _
      simp [ResponseWriter.Write, ResponseWriter.WriteHeader, ResponseWriter.SetHeader, hfresh,
        header_get_set]
    · intro h; exact absurd hacc h
    · simp [ResponseWriter.Write, ResponseWriter.WriteHeader, ResponseWriter.SetHeader, hfresh,
        header_get_set, hacc]
  · cases herr : (render results (deriveStatus results).1).2 with
    | none =>
      refine ⟨_, by simp only [Engine.HealthCheckHandler, hrun, hacc, if_false, herr]; rfl, ?_,
        deriveStatus_cases results, ?_, ?_, ?_⟩
      · simp [ResponseWriter.Write, ResponseWriter.WriteHeader, ResponseWriter.SetHeader, hfresh]
      · intro h; exact absurd h hacc
      · intro _
        simp [ResponseWriter.Write, ResponseWriter.WriteHeader, ResponseWriter.SetHeader, hfresh,
          header_get_set]
      · simp [ResponseWriter.Write, ResponseWriter.WriteHeader, ResponseWriter.SetHeader, hfresh,
          header_get_set, hacc]
    | some err =>
      refine ⟨_, by simp only [Engine.HealthCheckHandler, hrun, hacc, if_false, herr]; rfl, ?_,
        deriveStatus_cases results, ?_, ?_, ?_⟩
      · simp [httpError, ResponseWriter.Write, ResponseWriter.WriteHeader,
          ResponseWriter.SetHeader, hfresh]
      · intro h; exact absurd h hacc
      · intro _
        simp [httpError, ResponseWriter.Write, ResponseWriter.WriteHeader,
          ResponseWriter.SetHeader, hfresh, header_get_set, String.append_assoc]
      · simp [httpError, ResponseWriter.Write, ResponseWriter.WriteHeader,
          ResponseWriter.SetHeader, hfresh, header_get_set, hacc]

/-- C12 at the sample registry: JSON for Accept "application/json", a page for
Accept "application/json, text/plain", status 503 in both. -/
theorem handler_content_negotiation_witness :
    (∃ rw1, sampleEngine.HealthCheckHandler id sampleJson okRender (RangeOrder.stored _)
        "application/json" ResponseWriter.new 0 = .ok (rw1, 2) ∧
      rw1.statusCode = some 503 ∧ rw1.sentHeader.Get "Content-Type" = "application/json") ∧
    (∃ rw1, sampleEngine.HealthCheckHandler id sampleJson okRender (RangeOrder.stored _)
        "application/json, text/plain" ResponseWriter.new 0 = .ok (rw1, 2) ∧
      rw1.statusCode = some 503 ∧ rw1.sentHeader.Get "Content-Type" = "text/html") := by
  have hrun : sampleEngine.runChecks id (RangeOrder.stored _) 0
      = .ok ([⟨"id-cpu", "CPU Usage", false, "cpu high"⟩,
          ⟨"id-disk", "Check Disk Space", true, "disk fine"⟩], 2) := rfl
  obtain ⟨rw1, h1, hcode1, _, hjson, _, _⟩ := handler_content_negotiation id sampleJson
    okRender sampleEngine (RangeOrder.stored _) "application/json" ResponseWriter.new 0 _ 2
    rfl hrun
  obtain ⟨rw2, h2, hcode2, _, _, hhtml, _⟩ := handler_content_negotiation id sampleJson
    okRender sampleEngine (RangeOrder.stored _) "application/json, text/plain"
    ResponseWriter.new 0 _ 2 rfl hrun
  exact ⟨⟨rw1, h1, hcode1.trans rfl, (hjson rfl).1⟩,
    ⟨rw2, h2, hcode2.trans rfl, (hhtml (by decide)).1⟩⟩

/-- C13: two definitions with distinct Ids, whatever their Types (so also with
one Type listed in AvoidDuplicateFor), are both in the registry NewEngine builds
from them and in the registry AddChecks adds them to; when both are enabled
(ids having distinct strings) every run that returns has exactly one Result for
each, and the run returns when no enabled handler panics. -/
theorem avoidDuplicateFor_not_enforced (str : U → String) (e : Engine U W)
    (i1 i2 : CheckInit U W) (w : W) (hne : (i1 w).1.Id ≠ (i2 (i1 w).2).1.Id) :
    (NewEngine [i1, i2] w).1.checks.lookup (i1 w).1.Id = some (i1 w).1 ∧
    (NewEngine [i1, i2] w).1.checks.lookup (i2 (i1 w).2).1.Id = some (i2 (i1 w).2).1 ∧
    (e.AddChecks [i1, i2] w).1.checks.lookup (i1 w).1.Id = some (i1 w).1 ∧
    (e.AddChecks [i1, i2] w).1.checks.lookup (i2 (i1 w).2).1.Id = some (i2 (i1 w).2).1 ∧
    (Function.Injective str → (i1 w).1.Enabled = true → (i2 (i1 w).2).1.Enabled = true →
      (∀ (order : RangeOrder (NewEngine [i1, i2] w).1.checks) s rs s1,
        (NewEngine [i1, i2] w).1.runChecks str order s = .ok (rs, s1) →
          rs.countP (fun r => r.Id = str (i1 w).1.Id) = 1 ∧
          rs.countP (fun r => r.Id = str (i2 (i1 w).2).1.Id) = 1) ∧
      (∀ (order : RangeOrder (e.AddChecks [i1, i2] w).1.checks) s rs s1,
        (e.AddChecks [i1, i2] w).1.runChecks str order s = .ok (rs, s1) →
          rs.countP (fun r => r.Id = str (i1 w).1.Id) = 1 ∧
          rs.countP (fun r => r.Id = str (i2 (i1 w).2).1.Id) = 1)) ∧
    (HandlersReturn (NewEngine [i1, i2] w).1.checks.entries →
      ∀ (order : RangeOrder (NewEngine [i1, i2] w).1.checks) s,
        ∃ rs s1, (NewEngine [i1, i2] w).1.runChecks str order s = .ok (rs, s1)) := by
  have hl : ∀ checks : Checks U W,
      (addChecksLoop [i1, i2] checks w).1.lookup (i1 w).1.Id = some (i1 w).1 ∧
      (addChecksLoop [i1, i2] checks w).1.lookup (i2 (i1 w).2).1.Id = some (i2 (i1 w).2).1 := by
    intro checks
    simp only [addChecksLoop]
    exact ⟨by rw [AList.lookup_insert_ne hne, AList.lookup_insert], AList.lookup_insert _⟩
  have hn := hl (∅ : Checks U W)
  have ha := hl e.checks
  refine ⟨hn.1, hn.2, ha.1, ha.2, fun hinj hen1 hen2 => ⟨fun order s rs s1 h => ?_,
    fun order s rs s1 h => ?_⟩, fun hret order s => ?_⟩
  · exact ⟨by simpa [hen1] using runChecks_count str hinj _ order s rs s1 h _ _ hn.1,
      by simpa [hen2] using runChecks_count str hinj _ order s rs s1 h _ _ hn.2⟩
  · exact ⟨by simpa [hen1] using runChecks_count str hinj _ order s rs s1 h _ _ ha.1,
      by simpa [hen2] using runChecks_count str hinj _ order s rs s1 h _ _ ha.2⟩
  · exact runChecksLoop_returns str order.val [] s (handlersReturn_of_perm order.property hret)

/-- C13 at the two memory checks of `cmd/my_app/main.go`: same Type, listed in
AvoidDuplicateFor, both kept, one Result each. -/
theorem avoidDuplicateFor_not_enforced_witness :
    (mainMemoryNamed 2).1.Typ = (mainMemoryPlain 2).1.Typ ∧
    (mainMemoryNamed 2).1.Typ ∈ AvoidDuplicateFor ∧
    (NewEngine [mainMemoryNamed, mainMemoryPlain] 2).1.checks.keys = [1, 0] ∧
    ∃ rs s1, (NewEngine [mainMemoryNamed, mainMemoryPlain] 2).1.runChecks tallyStr
        (RangeOrder.stored _) 2 = .ok (rs, s1) ∧
      rs.countP (fun r => r.Id = tallyStr 0) = 1 ∧ rs.countP (fun r => r.Id = tallyStr 1) = 1 := by
  have hthm := avoidDuplicateFor_not_enforced tallyStr (sampleFactoryEngine)
    mainMemoryNamed mainMemoryPlain 2 (by decide)
  have hrun : (NewEngine [mainMemoryNamed, mainMemoryPlain] 2).1.runChecks tallyStr
      (RangeOrder.stored _) 2
      = .ok ([⟨"u", "Check Memory Usage", true, "memory fine"⟩,
          ⟨"", "Jiggy PC Memory usage", true, "memory fine"⟩], 4) := rfl
  refine ⟨rfl, by decide, rfl, _, _, hrun, ?_⟩
  exact (hthm.2.2.2.2.1 tallyStr_injective rfl rfl).1 _ 2 _ 4 hrun

/-- C11, evaluated: `runChecks`, and so the handler, reads the map without
holding `e.mu`, while AddChecks, EnableCheck and DisableCheck hold it at every
access.  With AddChecks adding the disk and the cpu check to an empty registry,
a request scheduled between the two writes reads a registry holding the disk
check alone, which is neither the registry before AddChecks nor the one after;
a reader that took the mutex could not be scheduled there. -/
theorem runChecks_reads_without_mutex :
    Guarded (runChecksSteps : List (Access U W)) = false ∧
    Guarded (HealthCheckHandlerSteps : List (Access U W)) = false ∧
    (∀ configs : List (CheckConfig U W), Guarded (AddChecksSteps configs) = true) ∧
    (∀ (e : Engine U W) (id : U),
      Guarded (EnableCheckSteps e id) = true ∧ Guarded (DisableCheckSteps e id) = true) ∧
    (interleave [false, false, true, false, false] ⟨(∅ : Checks String Nat), none⟩
        (AddChecksSteps [sampleDisk, sampleCpu]) runChecksSteps).map
      (fun r => (r.1.checks.keys, r.2.map (fun seen => seen.keys)))
      = some (["id-cpu", "id-disk"], [["id-disk"]]) ∧
    interleave [false, false, true, false, false] ⟨(∅ : Checks String Nat), none⟩
        (AddChecksSteps [sampleDisk, sampleCpu]) [.lock, .range, .unlock] = none := by
  refine ⟨rfl, rfl, fun configs => ?_, fun e id => ⟨?_, ?_⟩, rfl, rfl⟩
  · exact guardedFrom_stores configs
  · cases h : e.checks.lookup id <;> simp [EnableCheckSteps, Guarded, guardedFrom, h]
  · cases h : e.checks.lookup id <;> simp [DisableCheckSteps, Guarded, guardedFrom, h]

/-- C14: ToBeGreaterThan succeeds exactly when both values are ints, or both are
float64s, and the actual one is strictly greater; ToBeLessThan likewise with
strictly less, so it is ToBeGreaterThan with the two values exchanged.  Hence
equal values fail, an int against a float64 fails whatever the two numbers are,
a value of any other type fails, and the two never both succeed on one pair. -/
theorem toBeGreaterThan_iff (fmtV : expectations.Value → String)
    (actual expected : expectations.Value) :
    (((expectations.Expect actual).ToBeGreaterThan fmtV expected).1 = true ↔
      (∃ a b, actual = .int a ∧ expected = .int b ∧ a > b) ∨
      (∃ x y, actual = .float64 x ∧ expected = .float64 y ∧ expectations.F64.gt x y = true)) ∧
    (((expectations.Expect actual).ToBeLessThan fmtV expected).1 = true ↔
      (∃ a b, actual = .int a ∧ expected = .int b ∧ a < b) ∨
      (∃ x y, actual = .float64 x ∧ expected = .float64 y ∧ expectations.F64.lt x y = true)) ∧
    ((expectations.Expect actual).ToBeLessThan fmtV expected).1
      = ((expectations.Expect expected).ToBeGreaterThan fmtV actual).1 ∧
    ((expectations.Expect actual).ToBeGreaterThan fmtV actual).1 = false ∧
    ((expectations.Expect actual).ToBeLessThan fmtV actual).1 = false ∧
    (∀ a x, ((expectations.Expect (.int a)).ToBeGreaterThan fmtV (.float64 x)).1 = false ∧
      ((expectations.Expect (.float64 x)).ToBeGreaterThan fmtV (.int a)).1 = false ∧
      ((expectations.Expect (.int a)).ToBeLessThan fmtV (.float64 x)).1 = false ∧
      ((expectations.Expect (.float64 x)).ToBeLessThan fmtV (.int a)).1 = false) ∧
    (∀ typ text, ((expectations.Expect (.other typ text)).ToBeGreaterThan fmtV expected).1 = false ∧
      ((expectations.Expect actual).ToBeGreaterThan fmtV (.other typ text)).1 = false) ∧
    ¬ (((expectations.Expect actual).ToBeGreaterThan fmtV expected).1 = true ∧
      ((expectations.Expect actual).ToBeLessThan fmtV expected).1 = true) := by
  refine ⟨?_, ?_, ?_, ?_, ?_, ?_, ?_, ?_⟩
  · cases actual <;> cases expected <;>
      simp [expectations.Expect, expectations.Expectation.ToBeGreaterThan]
    all_goals split <;> simp_all
  · cases actual <;> cases expected <;>
      simp [expectations.Expect, expectations.Expectation.ToBeLessThan]
    all_goals split <;> simp_all
  · cases actual <;> cases expected <;>
      simp [expectations.Expect, expectations.Expectation.ToBeLessThan,
        expectations.Expectation.ToBeGreaterThan, expectations.F64.gt]
    all_goals split <;> simp_all
  · cases actual <;>
      simp [expectations.Expect, expectations.Expectation.ToBeGreaterThan, expectations.F64.gt,
        f64_lt_irrefl]
  · cases actual <;>
      simp [expectations.Expect, expectations.Expectation.ToBeLessThan, f64_lt_irrefl]
  · intro a x
    simp [expectations.Expect, expectations.Expectation.ToBeGreaterThan,
      expectations.Expectation.ToBeLessThan]
  · intro typ text
    refine ⟨by simp [expectations.Expect, expectations.Expectation.ToBeGreaterThan], ?_⟩
    cases actual <;> simp [expectations.Expect, expectations.Expectation.ToBeGreaterThan]
  · cases actual <;> cases expected <;>
      simp [expectations.Expect, expectations.Expectation.ToBeGreaterThan,
        expectations.Expectation.ToBeLessThan, expectations.F64.gt]
    · rename_i a b
      by_cases h1 : b < a
      · have h2 : ¬ a < b := not_lt.2 (le_of_lt h1)
        simp [h1, h2]
      · simp [h1]
    · rename_i x y
      by_cases h1 : expectations.F64.lt y x = true
      · have h2 : ¬ expectations.F64.lt x y = true := fun h => f64_lt_asymm x y ⟨h, h1⟩
        simp [h1, h2]
      · simp [h1]

end claims

end Allgood
